import Mathlib

/-!
Verification of the AgriConnect backend group-chat subsystem.

A shallow embedding of the chat-related code:

* `models/Message.js` — the `MessageSchema` (required ids, `messageType`
  enum with default `'text'`, `messageText` with `trim: true`, optional
  `fileUrl`, `timestamps: { createdAt: 'sentAt' }`), embedded as
  `MessageDoc`/`saveMessage`.
* `server.js` — the `socket.on('joinGroup')` and `socket.on('sendMessage')`
  handlers, embedded as `handleJoinGroup`/`handleSendMessage`.
* `routes/groups.js` — the file contains two concatenated versions of the
  router; both versions of `GET /:id/messages` and
  `POST /:id/toggle-membership` are embedded (`..._v1` from the first copy,
  `..._v2` from the second), along with `POST /:id/messages`
  (`httpPostMessage`) and group creation membership bootstrapping
  (`createGroup`).

Conventions: Mongo ObjectIds are strings; JavaScript `undefined`/missing
fields are `Option.none`; JS truthiness of an optional string is `falsy`;
`String.prototype.trim` is `jsTrim` (over ASCII whitespace); the wall-clock
timestamp taken at a durable write is an explicit `now : Nat` argument;
the Mongo store is a list in insertion order plus an id counter; the
Socket.IO room table is a list of (connection id, room key) pairs; the
`.populate('senderId', ...)` enrichment is a lookup in a user table.
Concurrency around the persist-then-refetch window of `sendMessage` is
modelled by letting the re-fetch (`Message.findById` after `save`) run
against an explicitly supplied store `lookupStore`, which a sequential run
instantiates with the post-save store.
-/

namespace AgriConnect

/-! ### JavaScript string helpers -/

/-- JS truthiness test for an optional string: `undefined`/`null` and the
empty string are falsy (`if (!groupId) ...`). -/
def falsy : Option String → Bool
  | none => true
  | some s => s == ""

/-- Drop trailing characters satisfying `p` (the right half of a trim). -/
def dropEnd (p : Char → Bool) : List Char → List Char
  | [] => []
  | c :: t =>
    let r := dropEnd p t
    if r.isEmpty then (if p c then [] else [c]) else c :: r

/-- Characters removed by `String.prototype.trim`, restricted to ASCII
whitespace. -/
def trimChars (l : List Char) : List Char :=
  dropEnd Char.isWhitespace (l.dropWhile Char.isWhitespace)

/-- Model of JavaScript `String.prototype.trim` (and of the Mongoose
`trim: true` schema setter): strip leading and trailing whitespace. -/
def jsTrim (s : String) : String :=
  String.mk (trimChars s.data)

/-- The `sendMessage` emptiness test on the text field:
`messageText === undefined || messageText.trim() === ''`. -/
def textEmpty : Option String → Bool
  | none => true
  | some s => jsTrim s == ""

/-- `messageType.charAt(0).toUpperCase() + messageType.slice(1)` from the
missing-file-URL error message. -/
def capitalizeFirst (s : String) : String :=
  match s.data with
  | [] => ""
  | c :: cs => String.mk (c.toUpper :: cs)

/-! ### Message model (`models/Message.js`) -/

/-- The `messageType` enum of `MessageSchema`: `['text', 'image', 'audio']`. -/
inductive MsgType
  | text
  | image
  | audio
deriving DecidableEq, Repr

/-- Mongoose enum casting: a raw string is accepted exactly when it is one
of the enum values. -/
def parseType : String → Option MsgType
  | "text" => some MsgType.text
  | "image" => some MsgType.image
  | "audio" => some MsgType.audio
  | _ => none

/-- A persisted `Message` document: persistence-layer id, the schema fields,
and the server-assigned `sentAt` timestamp
(`timestamps: { createdAt: 'sentAt' }`). -/
structure Message where
  id : Nat
  groupId : String
  senderId : String
  messageType : MsgType
  messageText : Option String
  fileUrl : Option String
  sentAt : Nat
deriving DecidableEq, Repr

/-- The message collection: documents in insertion order plus the id
counter used for newly assigned ids. -/
structure MessageStore where
  msgs : List Message
  nextId : Nat
deriving DecidableEq, Repr

/-- Store sanity: every stored id was assigned below the counter. -/
def MessageStore.WF (s : MessageStore) : Prop :=
  ∀ m ∈ s.msgs, m.id < s.nextId

/-- The field assignments of a `new Message({...})` document before
validation/save: the raw `messageType` string (absent means the schema
default applies) and the optional content fields. -/
structure MessageDoc where
  groupId : String
  senderId : String
  messageType : Option String
  messageText : Option String
  fileUrl : Option String
deriving DecidableEq, Repr

/-- `document.save()`: Mongoose validation (required `groupId`/`senderId`,
`messageType` cast against the enum after applying the default `'text'`),
the `trim: true` setter on `messageText`, id assignment and the `sentAt`
timestamp taken at the durable write.  Errors are `ValidationError`
messages. -/
def saveMessage (now : Nat) (store : MessageStore) (d : MessageDoc) :
    Except String (Message × MessageStore) :=
  if d.groupId = "" then Except.error "Path `groupId` is required."
  else if d.senderId = "" then Except.error "Path `senderId` is required."
  else
    match parseType (d.messageType.getD "text") with
    | none => Except.error "`messageType` is not a valid enum value."
    | some t =>
      let m : Message :=
        { id := store.nextId
          groupId := d.groupId
          senderId := d.senderId
          messageType := t
          messageText := d.messageText.map jsTrim
          fileUrl := d.fileUrl
          sentAt := now }
      Except.ok (m, { msgs := store.msgs ++ [m], nextId := store.nextId + 1 })

/-- `Message.findById(id)` against a message collection. -/
def findById (msgs : List Message) (i : Nat) : Option Message :=
  msgs.find? (fun m => m.id == i)

/-! ### Users and enrichment -/

/-- The public sender projection selected by
`.populate('senderId', 'fullName avatarUrl _id')`. -/
structure UserRec where
  id : String
  fullName : String
  avatarUrl : Option String
deriving DecidableEq, Repr

/-- User directory lookup by id. -/
def lookupUser (users : List UserRec) (uid : String) : Option UserRec :=
  users.find? (fun u => u.id == uid)

/-- A message whose `senderId` has been populated with the sender's public
profile; `populate` yields a null sender when the user is absent. -/
structure EnrichedMessage where
  msg : Message
  sender : Option UserRec
deriving DecidableEq, Repr

/-- `.populate('senderId', 'fullName avatarUrl _id')` on a found message. -/
def enrich (users : List UserRec) (m : Message) : EnrichedMessage :=
  { msg := m, sender := lookupUser users m.senderId }

/-! ### Groups (`models/FarmerGroup.js`), restricted to the chat-relevant
fields `createdBy` and `members` -/

/-- A farmer group: its creator and its member list. -/
structure FarmerGroup where
  createdBy : String
  members : List String
deriving DecidableEq, Repr

/-- The group collection, keyed by group id. -/
abbrev GroupStore := List (String × FarmerGroup)

/-- `FarmerGroup.findById(id)`. -/
def lookupGroup (gs : GroupStore) (gid : String) : Option FarmerGroup :=
  (gs.find? (fun p => p.1 == gid)).map (fun p => p.2)

/-- `group.save()` after mutating the members array: replace the stored
document(s) with key `gid` by the updated one. -/
def updateGroup (gs : GroupStore) (gid : String) (g : FarmerGroup) : GroupStore :=
  gs.map (fun p => if p.1 == gid then (gid, g) else p)

/-- Group creation (`POST /api/groups`): the membership-relevant part of
`newGroupData` is `createdBy: req.user.id, members: [req.user.id]` — the
creator is always the first member. -/
def createGroup (gs : GroupStore) (gid : String) (creatorId : String) : GroupStore :=
  gs ++ [(gid, { createdBy := creatorId, members := [creatorId] })]

/-- The claimed data-model invariant: every stored group contains its
creator among its members. -/
def CreatorInv (gs : GroupStore) : Prop :=
  ∀ p ∈ gs, p.2.createdBy ∈ p.2.members

/-! ### Server state -/

/-- Process state visible to the socket handlers: the message collection,
the in-memory Socket.IO room table (connection id, room key), the user
collection, and the group collection. -/
structure ServerState where
  msgStore : MessageStore
  rooms : List (Nat × String)
  users : List UserRec
  groups : GroupStore
deriving Repr

/-! ### Socket handlers (`server.js`) -/

/-- Events emitted back over sockets: `socket.emit('messageError', ...)`
to one connection, and the per-recipient copies of
`io.to(groupId).emit('newMessage', ...)`. -/
inductive SockEvent
  | messageError (toConn : Nat) (error : String)
  | newMessage (toConn : Nat) (payload : EnrichedMessage)
deriving DecidableEq, Repr

/-- Does this event deliver a `newMessage` to connection `c`? -/
def isNewMessageTo (c : Nat) : SockEvent → Bool
  | SockEvent.newMessage c' _ => c' == c
  | _ => false

/-- The connections currently joined to the room keyed `g`. -/
def roomMembers (rooms : List (Nat × String)) (g : String) : List Nat :=
  (rooms.filter (fun cr => cr.2 == g)).map (fun cr => cr.1)

/-- `io.to(g).emit('newMessage', m)`: one delivery per connection joined to
room `g`. -/
def broadcast (rooms : List (Nat × String)) (g : String) (m : EnrichedMessage) :
    List SockEvent :=
  (roomMembers rooms g).map (fun c => SockEvent.newMessage c m)

/-- `socket.on('joinGroup', groupId => socket.join(groupId))`; joining a
room a socket is already in is a no-op. -/
def handleJoinGroup (conn : Nat) (gid : String) (st : ServerState) : ServerState :=
  { st with rooms := if (conn, gid) ∈ st.rooms then st.rooms else (conn, gid) :: st.rooms }

/-- The raw `sendMessage` payload
`{ groupId, senderId, messageText, messageType, fileUrl }`; every field may
be absent. -/
structure Payload where
  groupId : Option String
  senderId : Option String
  messageText : Option String
  messageType : Option String
  fileUrl : Option String
deriving DecidableEq, Repr

/-- The four in-handler validations of `socket.on('sendMessage')`, in
source order, each with its emitted error text; `none` means the payload
reaches the `new Message` construction. -/
def Payload.validate (p : Payload) : Option String :=
  if falsy p.groupId then some "Internal server error: Group ID missing."
  else if falsy p.senderId then some "Internal server error: Sender ID missing."
  else if p.messageType = some "text" ∧ textEmpty p.messageText = true then
    some "Cannot send an empty text message."
  else if (p.messageType = some "image" ∨ p.messageType = some "audio") ∧ falsy p.fileUrl = true then
    some (capitalizeFirst (p.messageType.getD "") ++ " URL missing.")
  else none

/-- The `new Message({...})` construction of the socket handler:
`messageText: messageType === 'text' ? messageText.trim() : null` and
`fileUrl: (messageType === 'image' || messageType === 'audio') ? fileUrl : null`.
(When `messageType === 'text'` the validation has already ensured
`messageText` is present, so the `.trim()` call is total on the reachable
inputs.) -/
def docOf (p : Payload) : MessageDoc :=
  { groupId := p.groupId.getD ""
    senderId := p.senderId.getD ""
    messageType := p.messageType
    messageText := if p.messageType = some "text" then p.messageText.map jsTrim else none
    fileUrl := if p.messageType = some "image" ∨ p.messageType = some "audio" then p.fileUrl else none }

/-- `socket.on('sendMessage')`: validate, persist, re-fetch the saved
document by id (against `lookupStore`, the collection as seen at the
re-fetch; a sequential run passes the post-save store), populate the
sender, then either broadcast to the `payload.groupId` room or emit a
`messageError` to the sender only.  Returns the resulting message store
and the emitted events. -/
def handleSendMessage (conn : Nat) (p : Payload) (st : ServerState) (now : Nat)
    (lookupStore : List Message) : MessageStore × List SockEvent :=
  match p.validate with
  | some err => (st.msgStore, [SockEvent.messageError conn err])
  | none =>
    match saveMessage now st.msgStore (docOf p) with
    | Except.error e =>
        (st.msgStore, [SockEvent.messageError conn ("Invalid message data. " ++ e)])
    | Except.ok (saved, store2) =>
        match findById lookupStore saved.id with
        | none =>
            (store2,
             [SockEvent.messageError conn
                "Server error: Message details could not be prepared after saving."])
        | some found =>
            (store2, broadcast st.rooms (p.groupId.getD "") (enrich st.users found))

/-! ### HTTP message routes (`routes/groups.js`) -/

/-- Chat history ordering: ascending `sentAt`
(`.sort({ sentAt: 'asc' })`), stable with insertion order for ties. -/
def sentAtLe (a b : Message) : Prop := a.sentAt ≤ b.sentAt

instance : DecidableRel sentAtLe :=
  fun a b => inferInstanceAs (Decidable (a.sentAt ≤ b.sentAt))

instance : IsTotal Message sentAtLe :=
  ⟨fun a b => Nat.le_total a.sentAt b.sentAt⟩

instance : IsTrans Message sentAtLe :=
  ⟨fun _ _ _ h1 h2 => Nat.le_trans h1 h2⟩

/-- `Message.find({ groupId }).sort({ sentAt: 'asc' })`: the group's
messages in ascending-timestamp order, insertion order for ties. -/
def getHistory (store : MessageStore) (g : String) : List Message :=
  List.insertionSort sentAtLe (store.msgs.filter (fun m => m.groupId == g))

/-- Outcome of `GET /api/groups/:id/messages`. -/
inductive MsgsResult
  | notFound
  | forbidden
  | ok (msgs : List EnrichedMessage)
deriving DecidableEq, Repr

/-- The HTTP status code carried by each `GET /:id/messages` outcome. -/
def MsgsResult.status : MsgsResult → Nat
  | MsgsResult.notFound => 404
  | MsgsResult.forbidden => 403
  | MsgsResult.ok _ => 200

/-- First version of `GET /:id/messages`: a single combined check
`if (!group || !group.members.some(...)) return 403`, then the sorted,
sender-populated history. -/
def getGroupMessages_v1 (gs : GroupStore) (store : MessageStore) (users : List UserRec)
    (reqUserId gid : String) : MsgsResult :=
  match lookupGroup gs gid with
  | none => MsgsResult.forbidden
  | some g =>
      if reqUserId ∈ g.members then
        MsgsResult.ok ((getHistory store gid).map (enrich users))
      else MsgsResult.forbidden

/-- Second version of `GET /:id/messages`: `404` when the group is absent,
`403` when the requester is not a member, otherwise the sorted,
sender-populated history. -/
def getGroupMessages_v2 (gs : GroupStore) (store : MessageStore) (users : List UserRec)
    (reqUserId gid : String) : MsgsResult :=
  match lookupGroup gs gid with
  | none => MsgsResult.notFound
  | some g =>
      if reqUserId ∈ g.members then
        MsgsResult.ok ((getHistory store gid).map (enrich users))
      else MsgsResult.forbidden

/-- The document built by `POST /:id/messages`:
`groupId: req.params.id, senderId: req.user.id,
messageText: req.body.messageText, messageType: 'text'` — no content
validation and no `fileUrl`. -/
def httpMessageDoc (reqUserId gid : String) (body : Option String) : MessageDoc :=
  { groupId := gid
    senderId := reqUserId
    messageType := some "text"
    messageText := body
    fileUrl := none }

/-- Outcome of `POST /api/groups/:id/messages`: `201` with the populated
record (the route does not null-check the re-fetch), or the catch-all
`500 'Server Error'`. -/
inductive HttpPostResult
  | created (body : Option EnrichedMessage)
  | serverError
deriving DecidableEq, Repr

/-- `POST /api/groups/:id/messages`: save, re-fetch by id, populate the
sender, respond `201`; any error falls into the catch and answers `500`
with the store unchanged.  No membership check and no broadcast. -/
def httpPostMessage (now : Nat) (store : MessageStore) (users : List UserRec)
    (reqUserId gid : String) (body : Option String) : HttpPostResult × MessageStore :=
  match saveMessage now store (httpMessageDoc reqUserId gid body) with
  | Except.error _ => (HttpPostResult.serverError, store)
  | Except.ok (saved, store2) =>
      (HttpPostResult.created ((findById store2.msgs saved.id).map (enrich users)),
       store2)

/-! ### Toggle membership (`routes/groups.js`, both versions) -/

/-- Outcome of `POST /api/groups/:id/toggle-membership`. -/
inductive ToggleResult
  | ok (isMember : Bool)
  | notFound
  | creatorCannotLeave
  | serverError
deriving DecidableEq, Repr

/-- The HTTP status code carried by each toggle outcome: `200` for the
`{ isMember }` reply, `404` for a missing group (second version), `400` for
the creator-cannot-leave rejection (second version), `500` for the catch
(in the first version a missing group throws on `group.members` and lands
here). -/
def ToggleResult.status : ToggleResult → Nat
  | ToggleResult.ok _ => 200
  | ToggleResult.notFound => 404
  | ToggleResult.creatorCannotLeave => 400
  | ToggleResult.serverError => 500

/-- First version of `toggle-membership`: no null check (a missing group
throws and is caught as a 500) and no creator check — a member, creator
included, is always pulled from the members array. -/
def toggleMembership_v1 (gs : GroupStore) (gid uid : String) :
    ToggleResult × GroupStore :=
  match lookupGroup gs gid with
  | none => (ToggleResult.serverError, gs)
  | some g =>
      if uid ∈ g.members then
        (ToggleResult.ok false,
         updateGroup gs gid { g with members := g.members.filter (fun m => m != uid) })
      else
        (ToggleResult.ok true,
         updateGroup gs gid { g with members := g.members ++ [uid] })

/-- Second version of `toggle-membership`: `404` when the group is absent;
a member who is the creator is rejected with
`400 { error: 'The creator cannot leave the group.' }`; otherwise the
membership flips. -/
def toggleMembership_v2 (gs : GroupStore) (gid uid : String) :
    ToggleResult × GroupStore :=
  match lookupGroup gs gid with
  | none => (ToggleResult.notFound, gs)
  | some g =>
      if uid ∈ g.members then
        if g.createdBy = uid then (ToggleResult.creatorCannotLeave, gs)
        else
          (ToggleResult.ok false,
           updateGroup gs gid { g with members := g.members.filter (fun m => m != uid) })
      else
        (ToggleResult.ok true,
         updateGroup gs gid { g with members := g.members ++ [uid] })

/-- A sequence of second-version toggle operations
(group id, requesting user id), applied to the group store. -/
def runToggles_v2 (gs : GroupStore) (ops : List (String × String)) : GroupStore :=
  ops.foldl (fun s op => (toggleMembership_v2 s op.1 op.2).2) gs

/-- Validity of a message document with respect to the schema: required
ids present and the (defaulted) `messageType` in the enum; exactly the
condition under which `saveMessage` succeeds. -/
def ValidDoc (d : MessageDoc) : Prop :=
  d.groupId ≠ "" ∧ d.senderId ≠ "" ∧ (parseType (d.messageType.getD "text")).isSome

instance : DecidablePred ValidDoc := fun d =>
  inferInstanceAs (Decidable (d.groupId ≠ "" ∧ d.senderId ≠ "" ∧
    (parseType (d.messageType.getD "text")).isSome = true))

/-- Append a batch of documents, each with the wall-clock time of its own
durable write; returns the final store and the saved records in append
order (documents failing validation save nothing). -/
def appendMany (store : MessageStore) (items : List (MessageDoc × Nat)) :
    MessageStore × List Message :=
  match items with
  | [] => (store, [])
  | (d, t) :: rest =>
      match saveMessage t store d with
      | Except.error _ => appendMany store rest
      | Except.ok (m, store2) =>
          let out := appendMany store2 rest
          (out.1, m :: out.2)

end AgriConnect

namespace AgriConnect

/-! ### Supporting lemmas -/

theorem dropWhile_dropWhile (p : Char → Bool) (l : List Char) :
    (l.dropWhile p).dropWhile p = l.dropWhile p := by
  induction l with
  | nil => rfl
  | cons c t ih =>
      by_cases h : p c
      · simp [List.dropWhile_cons, h, ih]
      · simp [List.dropWhile_cons, h]

theorem dropEnd_dropEnd (p : Char → Bool) (l : List Char) :
    dropEnd p (dropEnd p l) = dropEnd p l := by
  induction l with
  | nil => rfl
  | cons c t ih =>
      by_cases hr : (dropEnd p t).isEmpty = true
      · by_cases hc : p c
        · simp [dropEnd, hr, hc]
        · simp [dropEnd, hr, hc]
      · simp [dropEnd, hr, ih]

theorem dropWhile_dropEnd_comm (p : Char → Bool) (l : List Char) :
    (dropEnd p l).dropWhile p = dropEnd p (l.dropWhile p) := by
  induction l with
  | nil => rfl
  | cons c t ih =>
      by_cases hc : p c
      · by_cases hr : (dropEnd p t).isEmpty = true
        · have ht : dropEnd p t = [] := List.isEmpty_iff.mp hr
          have h0 : dropEnd p (t.dropWhile p) = [] := by
            rw [← ih, ht]; rfl
          simp [dropEnd, hr, hc, List.dropWhile_cons, h0]
        · simp [dropEnd, hr, hc, List.dropWhile_cons, ih]
      · by_cases hr : (dropEnd p t).isEmpty = true
        · simp [dropEnd, hr, hc, List.dropWhile_cons]
        · simp [dropEnd, hr, hc, List.dropWhile_cons]

theorem trimChars_idem (l : List Char) : trimChars (trimChars l) = trimChars l := by
  unfold trimChars
  rw [dropWhile_dropEnd_comm, dropWhile_dropWhile, dropEnd_dropEnd]

theorem jsTrim_idem (s : String) : jsTrim (jsTrim s) = jsTrim s := by
  unfold jsTrim
  exact congrArg String.mk (trimChars_idem s.data)

theorem falsy_eq_false_iff (o : Option String) :
    falsy o = false ↔ ∃ s, o = some s ∧ s ≠ "" := by
  cases o <;> simp [falsy]

theorem textEmpty_eq_false_iff (o : Option String) :
    textEmpty o = false ↔ ∃ s, o = some s ∧ jsTrim s ≠ "" := by
  cases o <;> simp [textEmpty]

theorem validate_eq_none_iff (p : Payload) :
    p.validate = none ↔
      falsy p.groupId = false ∧ falsy p.senderId = false ∧
      ¬(p.messageType = some "text" ∧ textEmpty p.messageText = true) ∧
      ¬((p.messageType = some "image" ∨ p.messageType = some "audio") ∧
         falsy p.fileUrl = true) := by
  unfold Payload.validate
  by_cases h1 : falsy p.groupId <;> by_cases h2 : falsy p.senderId <;>
    by_cases h3 : (p.messageType = some "text" ∧ textEmpty p.messageText = true) <;>
    by_cases h4 : ((p.messageType = some "image" ∨ p.messageType = some "audio") ∧
                    falsy p.fileUrl = true) <;>
    simp [h1, h2, h3, h4]

theorem saveMessage_eq_ok {d : MessageDoc} {t : MsgType} (now : Nat) (store : MessageStore)
    (h1 : d.groupId ≠ "") (h2 : d.senderId ≠ "")
    (h3 : parseType (d.messageType.getD "text") = some t) :
    saveMessage now store d = Except.ok
      ({ id := store.nextId, groupId := d.groupId, senderId := d.senderId,
         messageType := t, messageText := d.messageText.map jsTrim,
         fileUrl := d.fileUrl, sentAt := now },
       { msgs := store.msgs ++
           [{ id := store.nextId, groupId := d.groupId, senderId := d.senderId,
              messageType := t, messageText := d.messageText.map jsTrim,
              fileUrl := d.fileUrl, sentAt := now }],
         nextId := store.nextId + 1 }) := by
  unfold saveMessage
  rw [if_neg h1, if_neg h2, h3]

theorem saveMessage_ok_inv {now : Nat} {store : MessageStore} {d : MessageDoc}
    {m : Message} {store2 : MessageStore}
    (h : saveMessage now store d = Except.ok (m, store2)) :
    m.id = store.nextId ∧ m.groupId = d.groupId ∧ m.senderId = d.senderId ∧
    m.messageText = d.messageText.map jsTrim ∧ m.fileUrl = d.fileUrl ∧
    m.sentAt = now ∧
    parseType (d.messageType.getD "text") = some m.messageType ∧
    store2.msgs = store.msgs ++ [m] ∧ store2.nextId = store.nextId + 1 := by
  unfold saveMessage at h
  split at h
  · exact absurd h (by simp)
  · split at h
    · exact absurd h (by simp)
    · split at h
      · exact absurd h (by simp)
      · rename_i t heq
        simp only [Except.ok.injEq, Prod.mk.injEq] at h
        obtain ⟨hm, hs⟩ := h
        subst hm hs
        exact ⟨rfl, rfl, rfl, rfl, rfl, rfl, heq, rfl, rfl⟩

theorem handleSendMessage_of_invalid {p : Payload} {err : String}
    (conn : Nat) (st : ServerState) (now : Nat) (lk : List Message)
    (hv : p.validate = some err) :
    handleSendMessage conn p st now lk =
      (st.msgStore, [SockEvent.messageError conn err]) := by
  unfold handleSendMessage
  rw [hv]

theorem handleSendMessage_of_ok {p : Payload} {now : Nat} {st : ServerState}
    {m : Message} {store2 : MessageStore} (conn : Nat) (lk : List Message)
    (hv : p.validate = none)
    (hs : saveMessage now st.msgStore (docOf p) = Except.ok (m, store2)) :
    handleSendMessage conn p st now lk =
      match findById lk m.id with
      | none =>
          (store2,
           [SockEvent.messageError conn
              "Server error: Message details could not be prepared after saving."])
      | some found =>
          (store2, broadcast st.rooms (p.groupId.getD "") (enrich st.users found)) := by
  unfold handleSendMessage
  rw [hv, hs]

theorem mem_roomMembers {rooms : List (Nat × String)} {g : String} {c : Nat} :
    c ∈ roomMembers rooms g ↔ (c, g) ∈ rooms := by
  unfold roomMembers
  simp only [List.mem_map, List.mem_filter, beq_iff_eq]
  constructor
  · rintro ⟨⟨a, b⟩, ⟨hmem, hb⟩, ha⟩
    simp only at hb ha
    subst hb ha
    exact hmem
  · intro h
    exact ⟨(c, g), ⟨h, rfl⟩, rfl⟩

theorem nodup_roomMembers {rooms : List (Nat × String)} (h : rooms.Nodup) (g : String) :
    (roomMembers rooms g).Nodup := by
  unfold roomMembers
  apply List.Nodup.map_on ?_ (h.filter _)
  rintro ⟨a, b⟩ ha ⟨a2, b2⟩ ha2 heq
  have hb : b = g := by simpa using (List.mem_filter.mp ha).2
  have hb2 : b2 = g := by simpa using (List.mem_filter.mp ha2).2
  simp only at heq
  subst hb hb2 heq
  rfl

theorem countP_newMessage (c : Nat) (em : EnrichedMessage) (l : List Nat) :
    (l.map (fun c' => SockEvent.newMessage c' em)).countP (isNewMessageTo c) =
      l.count c := by
  rw [List.countP_map]
  rfl

theorem findById_append_saved {store : MessageStore} {m : Message}
    (hwf : store.WF) (hid : m.id = store.nextId) :
    findById (store.msgs ++ [m]) m.id = some m := by
  unfold findById
  rw [List.find?_append]
  have h1 : store.msgs.find? (fun x => x.id == m.id) = none := by
    apply List.find?_eq_none.mpr
    intro x hx
    simp only [beq_iff_eq]
    rw [hid]
    exact Nat.ne_of_lt (hwf x hx)
  rw [h1]
  simp [List.find?]

end AgriConnect

namespace AgriConnect

/-- C7: the real-time send path consults neither the group collection nor
any membership information: the entire outcome of `handleSendMessage`
(persisted store and emitted events) is unchanged under any replacement of
the group store — in particular under any change to the target group's
members set — so a run with the sender a member and a run with the sender
a non-member produce the same persisted record and the same broadcast. -/
theorem send_path_ignores_membership (conn : Nat) (p : Payload) (now : Nat)
    (lk : List Message) (ms : MessageStore) (rooms : List (Nat × String))
    (users : List UserRec) (groups1 groups2 : GroupStore) :
    handleSendMessage conn p
      { msgStore := ms, rooms := rooms, users := users, groups := groups1 } now lk =
    handleSendMessage conn p
      { msgStore := ms, rooms := rooms, users := users, groups := groups2 } now lk := rfl

/-- C3 (amended): on the socket path a text send whose text is missing or
whitespace-only is rejected before persistence — the store is unchanged and
the sender gets the validation error — but the HTTP fallback
`POST /:id/messages` performs no such check: it persists a new row for
every request (any `messageText`, present or not), so the rejection
property does not hold on every send path. -/
theorem empty_text_rejection_paths :
    (∀ (conn : Nat) (p : Payload) (st : ServerState) (now : Nat) (lk : List Message),
       p.messageType = some "text" → textEmpty p.messageText = true →
       falsy p.groupId = false → falsy p.senderId = false →
       handleSendMessage conn p st now lk =
         (st.msgStore, [SockEvent.messageError conn "Cannot send an empty text message."]))
    ∧ (∀ (now : Nat) (store : MessageStore) (users : List UserRec) (uid gid : String)
         (body : Option String), uid ≠ "" → gid ≠ "" →
        ((httpPostMessage now store users uid gid body).2).msgs.length =
          store.msgs.length + 1) := by
  constructor
  · intro conn p st now lk ht he hg hs
    have hv : p.validate = some "Cannot send an empty text message." := by
      unfold Payload.validate
      simp [hg, hs, ht, he]
    exact handleSendMessage_of_invalid conn st now lk hv
  · intro now store users uid gid body hu hgid
    have h := saveMessage_eq_ok (d := httpMessageDoc uid gid body) (t := MsgType.text)
      now store hgid hu rfl
    unfold httpPostMessage
    rw [h]
    simp

/-- C3 counterexample: a whitespace-only text message posted through the
HTTP fallback endpoint is persisted (the store gains a row, with the
schema-trimmed empty string as its text), contradicting the claim that an
empty/whitespace-only text send is rejected before persistence on every
send path. -/
theorem empty_text_http_persists_cex :
    (httpPostMessage 5 { msgs := [], nextId := 0 } [] "u1" "g1" (some "   ")).2 =
      { msgs := [{ id := 0, groupId := "g1", senderId := "u1",
                   messageType := MsgType.text, messageText := some "",
                   fileUrl := none, sentAt := 5 }], nextId := 1 } := by
  rfl

/-- C3 witness: the rejection theorem applied to a concrete whitespace-only
socket send and the persistence count applied to a concrete HTTP post. -/
theorem empty_text_rejection_paths_witness :
    handleSendMessage 1
      { groupId := some "g1", senderId := some "u1", messageText := some "   ",
        messageType := some "text", fileUrl := none }
      { msgStore := { msgs := [], nextId := 0 }, rooms := [], users := [], groups := [] }
      0 [] =
      ({ msgs := [], nextId := 0 },
       [SockEvent.messageError 1 "Cannot send an empty text message."])
    ∧ ((httpPostMessage 5 { msgs := [], nextId := 0 } [] "u2" "g2" none).2).msgs.length =
        ({ msgs := [], nextId := 0 } : MessageStore).msgs.length + 1 :=
  ⟨empty_text_rejection_paths.1 1 _ _ 0 [] rfl (by decide) (by decide) (by decide),
   empty_text_rejection_paths.2 5 _ [] "u2" "g2" none (by decide) (by decide)⟩

/-- C10: the socket path stores the payload's `senderId` verbatim — the
persisted sender is whatever the client claimed, the entire outcome is
independent of the user directory (so no check against any existing or
authenticated user is possible), while the HTTP fallback takes the sender
from the authenticated request user. -/
theorem sender_identity_client_chosen :
    (∀ (p : Payload) (now : Nat) (store : MessageStore) (m : Message)
       (store2 : MessageStore),
       saveMessage now store (docOf p) = Except.ok (m, store2) →
       m.senderId = p.senderId.getD "")
    ∧ (∀ (conn : Nat) (p : Payload) (ms : MessageStore) (rooms : List (Nat × String))
         (users1 users2 : List UserRec) (G : GroupStore) (now : Nat) (lk : List Message),
        (handleSendMessage conn p
           { msgStore := ms, rooms := rooms, users := users1, groups := G } now lk).1 =
        (handleSendMessage conn p
           { msgStore := ms, rooms := rooms, users := users2, groups := G } now lk).1)
    ∧ (∀ (now : Nat) (store : MessageStore) (uid gid : String) (body : Option String)
         (m : Message) (store2 : MessageStore),
        saveMessage now store (httpMessageDoc uid gid body) = Except.ok (m, store2) →
        m.senderId = uid) := by
  refine ⟨?_, ?_, ?_⟩
  · intro p now store m store2 h
    exact (saveMessage_ok_inv h).2.2.1
  · intro conn p ms rooms users1 users2 G now lk
    cases hv : p.validate with
    | some err => simp [handleSendMessage, hv]
    | none =>
        cases hs : saveMessage now ms (docOf p) with
        | error e => simp [handleSendMessage, hv, hs]
        | ok pr =>
            obtain ⟨m, store2⟩ := pr
            cases hf : findById lk m.id with
            | none => simp [handleSendMessage, hv, hs, hf]
            | some found => simp [handleSendMessage, hv, hs, hf]
  · intro now store uid gid body m store2 h
    exact (saveMessage_ok_inv h).2.2.1

/-- C10 witness: a concrete socket payload claiming sender `"mallory"` is
persisted with exactly that sender id, and a concrete HTTP post stores the
authenticated user's id. -/
theorem sender_identity_client_chosen_witness :
    saveMessage 2 { msgs := [], nextId := 0 }
      (docOf { groupId := some "g1", senderId := some "mallory",
               messageText := some "hi", messageType := some "text", fileUrl := none }) =
      Except.ok ({ id := 0, groupId := "g1", senderId := "mallory",
                   messageType := MsgType.text, messageText := some "hi",
                   fileUrl := none, sentAt := 2 },
                 { msgs := [{ id := 0, groupId := "g1", senderId := "mallory",
                              messageType := MsgType.text, messageText := some "hi",
                              fileUrl := none, sentAt := 2 }], nextId := 1 })
    ∧ ({ id := 0, groupId := "g1", senderId := "mallory",
         messageType := MsgType.text, messageText := some "hi",
         fileUrl := none, sentAt := 2 } : Message).senderId =
        (some "mallory").getD "" :=
  ⟨rfl,
   sender_identity_client_chosen.1
     { groupId := some "g1", senderId := some "mallory", messageText := some "hi",
       messageType := some "text", fileUrl := none }
     2 { msgs := [], nextId := 0 }
     { id := 0, groupId := "g1", senderId := "mallory", messageType := MsgType.text,
       messageText := some "hi", fileUrl := none, sentAt := 2 }
     { msgs := [{ id := 0, groupId := "g1", senderId := "mallory",
                  messageType := MsgType.text, messageText := some "hi",
                  fileUrl := none, sentAt := 2 }], nextId := 1 }
     rfl⟩

end AgriConnect

namespace AgriConnect

/-- C9: for every payload that passes the socket validations and saves
successfully, a `text` send persists exactly the trimmed input text with a
null file URL, and an `image`/`audio` send persists a null text with the
input file URL verbatim; the handler's final store is the post-save
store. -/
theorem persisted_content_matches_input
    (conn : Nat) (p : Payload) (st : ServerState) (now : Nat) (lk : List Message)
    (m : Message) (store2 : MessageStore)
    (hv : p.validate = none)
    (hs : saveMessage now st.msgStore (docOf p) = Except.ok (m, store2)) :
    ((p.messageType = some "text" →
        ∃ s, p.messageText = some s ∧ m.messageText = some (jsTrim s) ∧ m.fileUrl = none)
     ∧ ((p.messageType = some "image" ∨ p.messageType = some "audio") →
        m.messageText = none ∧ m.fileUrl = p.fileUrl))
    ∧ (handleSendMessage conn p st now lk).1 = store2 := by
  obtain ⟨hid, hgid, hsid, htext, hfile, hsent, hparse, hmsgs, hnext⟩ := saveMessage_ok_inv hs
  refine ⟨⟨?_, ?_⟩, ?_⟩
  · intro ht
    have h3 := ((validate_eq_none_iff p).mp hv).2.2.1
    have he : textEmpty p.messageText = false := by
      cases hcase : textEmpty p.messageText with
      | false => rfl
      | true => exact absurd ⟨ht, hcase⟩ h3
    obtain ⟨s, hsome, _⟩ := (textEmpty_eq_false_iff _).mp he
    refine ⟨s, hsome, ?_, ?_⟩
    · rw [htext]
      simp [docOf, ht, hsome, jsTrim_idem]
    · rw [hfile]
      simp [docOf, ht]
  · intro him
    constructor
    · rw [htext]
      rcases him with h | h <;> simp [docOf, h]
    · rw [hfile]
      rcases him with h | h <;> simp [docOf, h]
  · rw [handleSendMessage_of_ok conn lk hv hs]
    cases hf : findById lk m.id <;> rfl

/-- C9 witness: a concrete text send with padded text persists the trimmed
text, and the handler keeps the post-save store. -/
theorem persisted_content_matches_input_witness :
    Payload.validate
        { groupId := some "g1", senderId := some "u1",
          messageText := some "  hello  ", messageType := some "text",
          fileUrl := none } = none
    ∧ ({ id := 0, groupId := "g1", senderId := "u1", messageType := MsgType.text,
         messageText := some "hello", fileUrl := none, sentAt := 9 } : Message).messageText =
        some (jsTrim "  hello  ")
    ∧ (handleSendMessage 4
          { groupId := some "g1", senderId := some "u1",
            messageText := some "  hello  ", messageType := some "text",
            fileUrl := none }
          { msgStore := { msgs := [], nextId := 0 }, rooms := [], users := [],
            groups := [] }
          9 []).1 =
        { msgs := [{ id := 0, groupId := "g1", senderId := "u1",
                     messageType := MsgType.text, messageText := some "hello",
                     fileUrl := none, sentAt := 9 }],
          nextId := 1 } := by
  have h := persisted_content_matches_input 4
    { groupId := some "g1", senderId := some "u1",
      messageText := some "  hello  ", messageType := some "text", fileUrl := none }
    { msgStore := { msgs := [], nextId := 0 }, rooms := [], users := [], groups := [] }
    9 []
    { id := 0, groupId := "g1", senderId := "u1", messageType := MsgType.text,
      messageText := some "hello", fileUrl := none, sentAt := 9 }
    { msgs := [{ id := 0, groupId := "g1", senderId := "u1",
                 messageType := MsgType.text, messageText := some "hello",
                 fileUrl := none, sentAt := 9 }],
      nextId := 1 }
    (by decide) rfl
  obtain ⟨s, hsome, hm, _⟩ := h.1.1 rfl
  refine ⟨by decide, ?_, h.2⟩
  have hs9 : s = "  hello  " := (Option.some.inj hsome).symm
  rw [← hs9]
  exact hm

/-- C2 (amended): every message persisted through the socket path with an
explicit `messageType` of `text`, `image` or `audio` satisfies the content
invariant (`messageText` populated iff type `text`, `fileUrl` populated iff
type `image`/`audio`), as does every HTTP post whose body carries a
`messageText`; but the invariant does not hold for all persisted messages —
a socket payload with `messageType` absent persists a `text`-typed message
with null `messageText` (the schema default fills the type after the
validation skipped the text check), and an HTTP post with no `messageText`
persists a text message with no text. -/
theorem message_content_invariant_explicit :
    (∀ (p : Payload) (now : Nat) (store : MessageStore) (m : Message)
       (store2 : MessageStore),
       (p.messageType = some "text" ∨ p.messageType = some "image" ∨
        p.messageType = some "audio") →
       p.validate = none →
       saveMessage now store (docOf p) = Except.ok (m, store2) →
       (m.messageText.isSome = true ↔ m.messageType = MsgType.text)
       ∧ (m.fileUrl.isSome = true ↔
            (m.messageType = MsgType.image ∨ m.messageType = MsgType.audio)))
    ∧ (∀ (now : Nat) (store : MessageStore) (uid gid s : String) (m : Message)
         (store2 : MessageStore),
        saveMessage now store (httpMessageDoc uid gid (some s)) = Except.ok (m, store2) →
        m.messageText.isSome = true ∧ m.messageType = MsgType.text ∧ m.fileUrl = none) := by
  constructor
  · intro p now store m store2 htype hv hs
    obtain ⟨hid, hgid, hsid, htext, hfile, hsent, hparse, hmsgs, hnext⟩ := saveMessage_ok_inv hs
    have hck := (validate_eq_none_iff p).mp hv
    simp only [docOf] at hparse
    rcases htype with ht | ht | ht
    · have hmt : m.messageType = MsgType.text := by
        rw [ht] at hparse
        simp [parseType] at hparse
        exact hparse.symm
      have he : textEmpty p.messageText = false := by
        cases hcase : textEmpty p.messageText with
        | false => rfl
        | true => exact absurd ⟨ht, hcase⟩ hck.2.2.1
      obtain ⟨s, hsome, _⟩ := (textEmpty_eq_false_iff _).mp he
      constructor
      · rw [htext, hmt]
        simp [docOf, ht, hsome]
      · rw [hfile, hmt]
        simp [docOf, ht]
    · have hmt : m.messageType = MsgType.image := by
        rw [ht] at hparse
        simp [parseType] at hparse
        exact hparse.symm
      have hfb : falsy p.fileUrl = false := by
        cases hcase : falsy p.fileUrl with
        | false => rfl
        | true => exact absurd ⟨Or.inl ht, hcase⟩ hck.2.2.2
      obtain ⟨u, husome, _⟩ := (falsy_eq_false_iff _).mp hfb
      constructor
      · rw [htext, hmt]
        simp [docOf, ht]
      · rw [hfile, hmt]
        simp [docOf, ht, husome]
    · have hmt : m.messageType = MsgType.audio := by
        rw [ht] at hparse
        simp [parseType] at hparse
        exact hparse.symm
      have hfb : falsy p.fileUrl = false := by
        cases hcase : falsy p.fileUrl with
        | false => rfl
        | true => exact absurd ⟨Or.inr ht, hcase⟩ hck.2.2.2
      obtain ⟨u, husome, _⟩ := (falsy_eq_false_iff _).mp hfb
      constructor
      · rw [htext, hmt]
        simp [docOf, ht]
      · rw [hfile, hmt]
        simp [docOf, ht, husome]
  · intro now store uid gid s m store2 hs
    obtain ⟨hid, hgid, hsid, htext, hfile, hsent, hparse, hmsgs, hnext⟩ := saveMessage_ok_inv hs
    have hmt : m.messageType = MsgType.text := by
      simp [httpMessageDoc, parseType] at hparse
      exact hparse.symm
    refine ⟨?_, hmt, ?_⟩
    · rw [htext]
      simp [httpMessageDoc]
    · rw [hfile]
      rfl

/-- C2 counterexample: a socket payload with `messageType` absent passes
every validation and is persisted as a `text`-typed message whose
`messageText` is null (and a bodyless HTTP post likewise persists a text
message with no text), so not every persisted message has exactly one of
the two content fields populated consistently with its type. -/
theorem message_content_invariant_cex :
    handleSendMessage 1
        { groupId := some "g1", senderId := some "u1", messageText := none,
          messageType := none, fileUrl := none }
        { msgStore := { msgs := [], nextId := 0 }, rooms := [], users := [],
          groups := [] }
        3
        [{ id := 0, groupId := "g1", senderId := "u1", messageType := MsgType.text,
           messageText := none, fileUrl := none, sentAt := 3 }] =
      ({ msgs := [{ id := 0, groupId := "g1", senderId := "u1",
                    messageType := MsgType.text, messageText := none,
                    fileUrl := none, sentAt := 3 }],
         nextId := 1 }, [])
    ∧ ({ id := 0, groupId := "g1", senderId := "u1", messageType := MsgType.text,
         messageText := none, fileUrl := none, sentAt := 3 } : Message).messageType =
        MsgType.text
    ∧ ({ id := 0, groupId := "g1", senderId := "u1", messageType := MsgType.text,
         messageText := none, fileUrl := none, sentAt := 3 } : Message).messageText = none
    ∧ (httpPostMessage 4 { msgs := [], nextId := 0 } [] "u1" "g1" none).2.msgs =
        [{ id := 0, groupId := "g1", senderId := "u1", messageType := MsgType.text,
           messageText := none, fileUrl := none, sentAt := 4 }] :=
  ⟨rfl, rfl, rfl, rfl⟩

/-- C2 witness: the amended invariant applied to a concrete explicit audio
send and to a concrete HTTP post with a text body. -/
theorem message_content_invariant_explicit_witness :
    ((none : Option String).isSome = true ↔ MsgType.audio = MsgType.text)
    ∧ ((some "file.mp3" : Option String).isSome = true ↔
        (MsgType.audio = MsgType.image ∨ MsgType.audio = MsgType.audio))
    ∧ ((some "hey" : Option String).isSome = true ∧ MsgType.text = MsgType.text ∧
        (none : Option String) = none) := by
  have ha := message_content_invariant_explicit.1
    { groupId := some "g1", senderId := some "u1", messageText := none,
      messageType := some "audio", fileUrl := some "file.mp3" }
    6 { msgs := [], nextId := 0 }
    { id := 0, groupId := "g1", senderId := "u1", messageType := MsgType.audio,
      messageText := none, fileUrl := some "file.mp3", sentAt := 6 }
    { msgs := [{ id := 0, groupId := "g1", senderId := "u1",
                 messageType := MsgType.audio, messageText := none,
                 fileUrl := some "file.mp3", sentAt := 6 }],
      nextId := 1 }
    (by decide) (by decide) rfl
  have hb := message_content_invariant_explicit.2
    7 { msgs := [], nextId := 0 } "u1" "g1" "hey"
    { id := 0, groupId := "g1", senderId := "u1", messageType := MsgType.text,
      messageText := some "hey", fileUrl := none, sentAt := 7 }
    { msgs := [{ id := 0, groupId := "g1", senderId := "u1",
                 messageType := MsgType.text, messageText := some "hey",
                 fileUrl := none, sentAt := 7 }],
      nextId := 1 }
    rfl
  exact ⟨ha.1, ha.2, hb⟩

end AgriConnect

namespace AgriConnect

theorem CreatorInv.updateGroup {gs : GroupStore} (h : CreatorInv gs) {gid : String}
    {g : FarmerGroup} (hg : g.createdBy ∈ g.members) :
    CreatorInv (AgriConnect.updateGroup gs gid g) := by
  intro p hp
  unfold AgriConnect.updateGroup at hp
  obtain ⟨q, hq, hpe⟩ := List.mem_map.mp hp
  by_cases hk : (q.1 == gid) = true
  · rw [if_pos hk] at hpe
    subst hpe
    exact hg
  · rw [if_neg hk] at hpe
    subst hpe
    exact h q hq

theorem lookupGroup_inv {gs : GroupStore} {gid : String} {g : FarmerGroup}
    (h : CreatorInv gs) (hl : lookupGroup gs gid = some g) :
    g.createdBy ∈ g.members := by
  unfold lookupGroup at hl
  obtain ⟨q, hq, hq2⟩ := Option.map_eq_some'.mp hl
  have hqm : q ∈ gs := List.mem_of_find?_eq_some hq
  rw [← hq2]
  exact h q hqm

theorem toggleMembership_v2_preserves (gs : GroupStore) (gid uid : String)
    (h : CreatorInv gs) : CreatorInv (toggleMembership_v2 gs gid uid).2 := by
  unfold toggleMembership_v2
  cases hl : lookupGroup gs gid with
  | none => exact h
  | some g =>
      have hginv : g.createdBy ∈ g.members := lookupGroup_inv h hl
      by_cases hm : uid ∈ g.members
      · by_cases hc : g.createdBy = uid
        · simp only [hm, if_pos, hc, if_true]
          exact h
        · simp only [hm, if_pos, hc, if_false]
          refine h.updateGroup ?_
          simp only [List.mem_filter, bne_iff_ne, ne_eq]
          exact ⟨hginv, hc⟩
      · simp only [hm, if_neg, if_false]
        refine h.updateGroup ?_
        simp only [List.mem_append]
        exact Or.inl hginv

theorem runToggles_v2_preserves (ops : List (String × String)) :
    ∀ gs : GroupStore, CreatorInv gs → CreatorInv (runToggles_v2 gs ops) := by
  induction ops with
  | nil => intro gs h; exact h
  | cons op rest ih =>
      intro gs h
      exact ih _ (toggleMembership_v2_preserves gs op.1 op.2 h)

/-- C1 (amended): in the second version of `toggle-membership` a toggle by
the creator is rejected — with a `400` error (`'The creator cannot leave
the group.'`), not a `403 Forbidden` — leaving the group store unchanged,
and the invariant `creator ∈ members` (established by `createGroup`) is
preserved by every sequence of second-version toggles; the first version
of the handler performs no creator check and does remove the creator. -/
theorem toggle_creator_guard_v2 :
    (∀ (gs : GroupStore) (gid uid : String) (g : FarmerGroup),
       lookupGroup gs gid = some g → uid ∈ g.members → g.createdBy = uid →
       toggleMembership_v2 gs gid uid = (ToggleResult.creatorCannotLeave, gs)
       ∧ ToggleResult.status ToggleResult.creatorCannotLeave = 400)
    ∧ (∀ (gs : GroupStore) (gid creatorId : String),
        CreatorInv gs → CreatorInv (createGroup gs gid creatorId))
    ∧ (∀ (gs : GroupStore) (ops : List (String × String)),
        CreatorInv gs → CreatorInv (runToggles_v2 gs ops)) := by
  refine ⟨?_, ?_, ?_⟩
  · intro gs gid uid g hl hm hc
    constructor
    · unfold toggleMembership_v2
      rw [hl]
      simp [hm, hc]
    · rfl
  · intro gs gid creatorId h
    intro p hp
    unfold createGroup at hp
    rcases List.mem_append.mp hp with hold | hnew
    · exact h p hold
    · rw [List.mem_singleton.mp hnew]
      exact List.mem_singleton_self creatorId
  · intro gs ops h
    exact runToggles_v2_preserves ops gs h

/-- C1 counterexample: under the first version of `toggle-membership` the
creator of a group whose members are exactly the creator is removed — the
call succeeds with `isMember: false` and the stored members set becomes
empty, so the claim that a toggle by the creator always fails and leaves
the members set unchanged is false for the code as a whole. -/
theorem toggle_v1_removes_creator_cex :
    toggleMembership_v1 [("g1", { createdBy := "alice", members := ["alice"] })]
        "g1" "alice" =
      (ToggleResult.ok false, [("g1", { createdBy := "alice", members := [] })])
    ∧ "alice" ∉ ({ createdBy := "alice", members := [] } : FarmerGroup).members := by
  refine ⟨rfl, ?_⟩
  simp

/-- C1 witness: the creator guard and the invariant preservation applied to
a concrete two-member group and a concrete toggle sequence. -/
theorem toggle_creator_guard_v2_witness :
    toggleMembership_v2 [("g1", { createdBy := "a", members := ["a", "b"] })] "g1" "a" =
      (ToggleResult.creatorCannotLeave,
       [("g1", { createdBy := "a", members := ["a", "b"] })])
    ∧ CreatorInv
        (runToggles_v2 [("g1", { createdBy := "a", members := ["a", "b"] })]
          [("g1", "b"), ("g1", "c"), ("g1", "a")]) :=
  ⟨(toggle_creator_guard_v2.1 [("g1", { createdBy := "a", members := ["a", "b"] })]
      "g1" "a" { createdBy := "a", members := ["a", "b"] } rfl (by decide) rfl).1,
   toggle_creator_guard_v2.2.2 [("g1", { createdBy := "a", members := ["a", "b"] })]
     [("g1", "b"), ("g1", "c"), ("g1", "a")] (by unfold CreatorInv; decide)⟩

/-- C6 (amended): the second version of `GET /:id/messages` behaves as
claimed — `404` when the group does not exist, `403` (and no messages) when
the requester is not a member, and the ordered enriched history when the
requester is a member; the first version of the handler instead answers
`403` (not `404`) when the group is absent, and otherwise behaves the
same. -/
theorem history_access_control_v2 (gs : GroupStore) (store : MessageStore)
    (users : List UserRec) (uid gid : String) :
    (lookupGroup gs gid = none →
       getGroupMessages_v2 gs store users uid gid = MsgsResult.notFound)
    ∧ (∀ g : FarmerGroup, lookupGroup gs gid = some g → uid ∉ g.members →
        getGroupMessages_v2 gs store users uid gid = MsgsResult.forbidden)
    ∧ (∀ g : FarmerGroup, lookupGroup gs gid = some g → uid ∈ g.members →
        getGroupMessages_v2 gs store users uid gid =
          MsgsResult.ok ((getHistory store gid).map (enrich users)))
    ∧ MsgsResult.status MsgsResult.notFound = 404
    ∧ MsgsResult.status MsgsResult.forbidden = 403 := by
  refine ⟨?_, ?_, ?_, rfl, rfl⟩
  · intro h
    unfold getGroupMessages_v2
    rw [h]
  · intro g hl hm
    unfold getGroupMessages_v2
    rw [hl]
    simp [hm]
  · intro g hl hm
    unfold getGroupMessages_v2
    rw [hl]
    simp [hm]

/-- C6 counterexample: the first version of the history endpoint answers
`403` — not `404` — for a group id that does not exist, so the claimed
absent-group behaviour is false for the code as a whole. -/
theorem history_v1_absent_group_cex :
    lookupGroup ([] : GroupStore) "g1" = none
    ∧ getGroupMessages_v1 [] { msgs := [], nextId := 0 } [] "u1" "g1" =
        MsgsResult.forbidden
    ∧ MsgsResult.status MsgsResult.forbidden = 403
    ∧ MsgsResult.status MsgsResult.forbidden ≠ 404 :=
  ⟨rfl, rfl, rfl, by decide⟩

/-- C6 witness: the three access-control arms of the second version applied
to a concrete group store. -/
theorem history_access_control_v2_witness :
    getGroupMessages_v2 [("g1", { createdBy := "a", members := ["a"] })]
        { msgs := [], nextId := 0 } [] "a" "g2" = MsgsResult.notFound
    ∧ getGroupMessages_v2 [("g1", { createdBy := "a", members := ["a"] })]
        { msgs := [], nextId := 0 } [] "b" "g1" = MsgsResult.forbidden
    ∧ getGroupMessages_v2 [("g1", { createdBy := "a", members := ["a"] })]
        { msgs := [], nextId := 0 } [] "a" "g1" =
        MsgsResult.ok ((getHistory { msgs := [], nextId := 0 } "g1").map (enrich [])) :=
  ⟨(history_access_control_v2 _ _ _ "a" "g2").1 rfl,
   (history_access_control_v2 _ _ _ "b" "g1").2.1
     { createdBy := "a", members := ["a"] } rfl (by decide),
   (history_access_control_v2 _ _ _ "a" "g1").2.2.1
     { createdBy := "a", members := ["a"] } rfl (by decide)⟩

/-- C5: when the post-persist enrichment re-fetch fails (the saved id is
absent from the store seen by the re-fetch, e.g. after a concurrent
deletion), the handler emits exactly one `messageError` to the sending
connection, broadcasts nothing, and the saved record remains in the final
store — the persisted state is not rolled back. -/
theorem enrichment_failure_no_broadcast
    (conn : Nat) (p : Payload) (st : ServerState) (now : Nat) (lk : List Message)
    (m : Message) (store2 : MessageStore)
    (hv : p.validate = none)
    (hs : saveMessage now st.msgStore (docOf p) = Except.ok (m, store2))
    (hf : findById lk m.id = none) :
    handleSendMessage conn p st now lk =
      (store2,
       [SockEvent.messageError conn
          "Server error: Message details could not be prepared after saving."])
    ∧ m ∈ store2.msgs := by
  constructor
  · rw [handleSendMessage_of_ok conn lk hv hs, hf]
  · rw [(saveMessage_ok_inv hs).2.2.2.2.2.2.2.1]
    simp

/-- C5 witness: a concrete valid send whose re-fetch runs against a store
from which the message has vanished: the sender alone gets the error and
the handler's final store still holds the saved record. -/
theorem enrichment_failure_no_broadcast_witness :
    handleSendMessage 2
        { groupId := some "g1", senderId := some "u1", messageText := some "hi",
          messageType := some "text", fileUrl := none }
        { msgStore := { msgs := [], nextId := 0 }, rooms := [(2, "g1"), (3, "g1")],
          users := [], groups := [] }
        8 [] =
      ({ msgs := [{ id := 0, groupId := "g1", senderId := "u1",
                    messageType := MsgType.text, messageText := some "hi",
                    fileUrl := none, sentAt := 8 }],
         nextId := 1 },
       [SockEvent.messageError 2
          "Server error: Message details could not be prepared after saving."])
    ∧ ({ id := 0, groupId := "g1", senderId := "u1", messageType := MsgType.text,
         messageText := some "hi", fileUrl := none, sentAt := 8 } : Message) ∈
        [{ id := 0, groupId := "g1", senderId := "u1", messageType := MsgType.text,
           messageText := some "hi", fileUrl := none, sentAt := 8 }] :=
  enrichment_failure_no_broadcast 2
    { groupId := some "g1", senderId := some "u1", messageText := some "hi",
      messageType := some "text", fileUrl := none }
    { msgStore := { msgs := [], nextId := 0 }, rooms := [(2, "g1"), (3, "g1")],
      users := [], groups := [] }
    8 []
    { id := 0, groupId := "g1", senderId := "u1", messageType := MsgType.text,
      messageText := some "hi", fileUrl := none, sentAt := 8 }
    { msgs := [{ id := 0, groupId := "g1", senderId := "u1",
                 messageType := MsgType.text, messageText := some "hi",
                 fileUrl := none, sentAt := 8 }],
      nextId := 1 }
    (by decide) rfl rfl

end AgriConnect

namespace AgriConnect

/-- C4: on a successful sequential send (validation passes, save succeeds,
the re-fetch sees the post-save store), the emitted events are exactly one
`newMessage` per connection currently joined to the target group's room —
the sender's connection included whenever it is joined — each carrying the
enriched persisted record (same underlying message, hence matching id), and
a connection not joined to that room receives no `newMessage` at all. -/
theorem broadcast_exactly_once
    (conn : Nat) (p : Payload) (st : ServerState) (now : Nat) (g : String)
    (m : Message) (store2 : MessageStore)
    (hv : p.validate = none)
    (hg : p.groupId = some g)
    (hs : saveMessage now st.msgStore (docOf p) = Except.ok (m, store2))
    (hwf : st.msgStore.WF)
    (hrooms : st.rooms.Nodup) :
    (handleSendMessage conn p st now store2.msgs).2 =
      (roomMembers st.rooms g).map (fun c => SockEvent.newMessage c (enrich st.users m))
    ∧ (∀ c : Nat, (c, g) ∈ st.rooms →
        ((handleSendMessage conn p st now store2.msgs).2).countP (isNewMessageTo c) = 1)
    ∧ (∀ c : Nat, (c, g) ∉ st.rooms →
        ((handleSendMessage conn p st now store2.msgs).2).countP (isNewMessageTo c) = 0)
    ∧ (∀ e ∈ (handleSendMessage conn p st now store2.msgs).2,
        ∃ c, e = SockEvent.newMessage c (enrich st.users m) ∧ (c, g) ∈ st.rooms)
    ∧ (enrich st.users m).msg = m := by
  obtain ⟨hid, _, _, _, _, _, _, hmsgs, _⟩ := saveMessage_ok_inv hs
  have hfind : findById store2.msgs m.id = some m := by
    rw [hmsgs]
    exact findById_append_saved hwf hid
  have hout : handleSendMessage conn p st now store2.msgs =
      (store2, broadcast st.rooms g (enrich st.users m)) := by
    rw [handleSendMessage_of_ok conn store2.msgs hv hs, hfind, hg]
    rfl
  refine ⟨?_, ?_, ?_, ?_, rfl⟩
  · rw [hout]
    rfl
  · intro c hc
    rw [hout]
    show (broadcast st.rooms g (enrich st.users m)).countP (isNewMessageTo c) = 1
    unfold broadcast
    rw [countP_newMessage]
    exact List.count_eq_one_of_mem (nodup_roomMembers hrooms g) (mem_roomMembers.mpr hc)
  · intro c hc
    rw [hout]
    show (broadcast st.rooms g (enrich st.users m)).countP (isNewMessageTo c) = 0
    unfold broadcast
    rw [countP_newMessage]
    exact List.count_eq_zero.mpr (fun hmem => hc (mem_roomMembers.mp hmem))
  · intro e he
    rw [hout] at he
    unfold broadcast at he
    obtain ⟨c, hcmem, rfl⟩ := List.mem_map.mp he
    exact ⟨c, rfl, mem_roomMembers.mp hcmem⟩

/-- C4 witness: a concrete send into room `"g1"` with two joined
connections (the sender among them) and one connection joined to another
room: each joined connection counts exactly one `newMessage`, the outsider
counts zero. -/
theorem broadcast_exactly_once_witness :
    ((handleSendMessage 1
        { groupId := some "g1", senderId := some "u1", messageText := some "hi",
          messageType := some "text", fileUrl := none }
        { msgStore := { msgs := [], nextId := 0 },
          rooms := [(1, "g1"), (2, "g1"), (3, "g2")],
          users := [{ id := "u1", fullName := "Alice", avatarUrl := none }],
          groups := [] }
        4
        [{ id := 0, groupId := "g1", senderId := "u1", messageType := MsgType.text,
           messageText := some "hi", fileUrl := none, sentAt := 4 }]).2).countP
      (isNewMessageTo 1) = 1
    ∧ ((handleSendMessage 1
        { groupId := some "g1", senderId := some "u1", messageText := some "hi",
          messageType := some "text", fileUrl := none }
        { msgStore := { msgs := [], nextId := 0 },
          rooms := [(1, "g1"), (2, "g1"), (3, "g2")],
          users := [{ id := "u1", fullName := "Alice", avatarUrl := none }],
          groups := [] }
        4
        [{ id := 0, groupId := "g1", senderId := "u1", messageType := MsgType.text,
           messageText := some "hi", fileUrl := none, sentAt := 4 }]).2).countP
      (isNewMessageTo 3) = 0 := by
  have h := broadcast_exactly_once 1
    { groupId := some "g1", senderId := some "u1", messageText := some "hi",
      messageType := some "text", fileUrl := none }
    { msgStore := { msgs := [], nextId := 0 },
      rooms := [(1, "g1"), (2, "g1"), (3, "g2")],
      users := [{ id := "u1", fullName := "Alice", avatarUrl := none }],
      groups := [] }
    4 "g1"
    { id := 0, groupId := "g1", senderId := "u1", messageType := MsgType.text,
      messageText := some "hi", fileUrl := none, sentAt := 4 }
    { msgs := [{ id := 0, groupId := "g1", senderId := "u1",
                 messageType := MsgType.text, messageText := some "hi",
                 fileUrl := none, sentAt := 4 }],
      nextId := 1 }
    (by decide) rfl rfl
    (by intro m hm; simp at hm)
    (by decide)
  exact ⟨h.2.1 1 (by decide), h.2.2.1 3 (by decide)⟩

theorem appendMany_spec (items : List (MessageDoc × Nat)) :
    ∀ store : MessageStore, (∀ x ∈ items, ValidDoc x.1) →
      (appendMany store items).1.msgs = store.msgs ++ (appendMany store items).2
      ∧ (appendMany store items).2.map Message.sentAt = items.map Prod.snd
      ∧ (appendMany store items).2.map Message.groupId =
          items.map (fun x => x.1.groupId) := by
  induction items with
  | nil =>
      intro store _
      simp [appendMany]
  | cons it rest ih =>
      intro store h
      obtain ⟨d, tm⟩ := it
      obtain ⟨h1, h2, h3⟩ := h (d, tm) (List.mem_cons_self _ _)
      obtain ⟨tt, ht⟩ := Option.isSome_iff_exists.mp h3
      have hsave := saveMessage_eq_ok (d := d) (t := tt) tm store h1 h2 ht
      have hrest := ih
        { msgs := store.msgs ++
            [{ id := store.nextId, groupId := d.groupId, senderId := d.senderId,
               messageType := tt, messageText := d.messageText.map jsTrim,
               fileUrl := d.fileUrl, sentAt := tm }],
          nextId := store.nextId + 1 }
        (fun x hx => h x (List.mem_cons_of_mem _ hx))
      simp only [appendMany, hsave]
      refine ⟨?_, ?_, ?_⟩
      · rw [hrest.1]
        simp
      · simp only [List.map_cons, hrest.2.1]
      · simp only [List.map_cons, hrest.2.2]

/-- C8: `getHistory` always returns messages in non-decreasing `sentAt`
order, and the round trip holds — appending a batch of valid documents for
group `g` (with the non-decreasing server timestamps of their durable
writes) to a store holding no `g`-messages makes `getHistory g` return
exactly the saved records in append order. -/
theorem history_sorted_roundtrip :
    (∀ (store : MessageStore) (g : String),
       List.Sorted sentAtLe (getHistory store g))
    ∧ (∀ (store : MessageStore) (items : List (MessageDoc × Nat)) (g : String),
        (∀ x ∈ items, ValidDoc x.1 ∧ x.1.groupId = g) →
        (items.map Prod.snd).Pairwise (fun a b => a ≤ b) →
        (∀ m ∈ store.msgs, m.groupId ≠ g) →
        getHistory (appendMany store items).1 g = (appendMany store items).2) := by
  constructor
  · intro store g
    exact List.sorted_insertionSort sentAtLe _
  · intro store items g hval hchrono hold
    obtain ⟨hmsgs, hsent, hgids⟩ := appendMany_spec items store (fun x hx => (hval x hx).1)
    unfold getHistory
    rw [hmsgs, List.filter_append _ _]
    have hold2 : store.msgs.filter (fun m => m.groupId == g) = [] := by
      apply List.filter_eq_nil_iff.mpr
      intro a ha
      simp only [beq_iff_eq]
      exact hold a ha
    have hall : ∀ m ∈ (appendMany store items).2, (m.groupId == g) = true := by
      intro m hm
      have hmem : m.groupId ∈ (appendMany store items).2.map Message.groupId :=
        List.mem_map_of_mem _ hm
      rw [hgids] at hmem
      obtain ⟨x, hx, hxe⟩ := List.mem_map.mp hmem
      have hmg : m.groupId = g := by
        rw [← hxe]
        exact (hval x hx).2
      simp [hmg]
    rw [hold2, List.nil_append, List.filter_eq_self.mpr hall]
    apply List.Sorted.insertionSort_eq
    have hp : ((appendMany store items).2.map Message.sentAt).Pairwise
        (fun a b => a ≤ b) := by
      rw [hsent]
      exact hchrono
    have h2 : (appendMany store items).2.Pairwise
        (fun a b => a.sentAt ≤ b.sentAt) := List.pairwise_map.mp hp
    exact h2

/-- C8 witness: two valid text documents for group `"g1"` appended with
tied timestamps (exercising the stable tie-break) round-trip through
`getHistory` in append order. -/
theorem history_sorted_roundtrip_witness :
    getHistory
        (appendMany { msgs := [], nextId := 0 }
          [({ groupId := "g1", senderId := "u1", messageType := some "text",
              messageText := some "a", fileUrl := none }, 5),
           ({ groupId := "g1", senderId := "u2", messageType := some "text",
              messageText := some "b", fileUrl := none }, 5)]).1 "g1" =
      (appendMany { msgs := [], nextId := 0 }
        [({ groupId := "g1", senderId := "u1", messageType := some "text",
            messageText := some "a", fileUrl := none }, 5),
         ({ groupId := "g1", senderId := "u2", messageType := some "text",
            messageText := some "b", fileUrl := none }, 5)]).2
    ∧ (appendMany { msgs := [], nextId := 0 }
        [({ groupId := "g1", senderId := "u1", messageType := some "text",
            messageText := some "a", fileUrl := none }, 5),
         ({ groupId := "g1", senderId := "u2", messageType := some "text",
            messageText := some "b", fileUrl := none }, 5)]).2 =
      [{ id := 0, groupId := "g1", senderId := "u1", messageType := MsgType.text,
         messageText := some "a", fileUrl := none, sentAt := 5 },
       { id := 1, groupId := "g1", senderId := "u2", messageType := MsgType.text,
         messageText := some "b", fileUrl := none, sentAt := 5 }] :=
  ⟨history_sorted_roundtrip.2 { msgs := [], nextId := 0 }
     [({ groupId := "g1", senderId := "u1", messageType := some "text",
         messageText := some "a", fileUrl := none }, 5),
      ({ groupId := "g1", senderId := "u2", messageType := some "text",
         messageText := some "b", fileUrl := none }, 5)]
     "g1" (by decide) (by decide) (by intro m hm; simp at hm),
   rfl⟩

end AgriConnect
